import Mathlib

/-!
Verification of the springsandpucks node server core (latest revision,
`server.js` of July 2025): identity registry, room directory, message
routing and the idle-lifecycle timer.  JavaScript objects used as maps
are modelled as association lists over `String` keys; `undefined` is
modelled as `Option.none`, and a property access or `delete` with an
`undefined` key is modelled as a no-op (this assumes no identifier is the
literal string "undefined", the standard partial-map reading of the
source's data model).  JavaScript string truthiness (`""`, `null` and
`undefined` are falsy) is modelled explicitly.
-/

namespace SP

/-- Lookup in a JS object modelled as an association list. -/
def aget {α : Type} : List (String × α) → String → Option α
  | [], _ => none
  | p :: t, k => if p.1 = k then some p.2 else aget t k

/-- Property assignment `m[k] = v`: replace the binding if present, else append. -/
def aset {α : Type} : List (String × α) → String → α → List (String × α)
  | [], k, v => [(k, v)]
  | p :: t, k, v => if p.1 = k then (k, v) :: t else p :: aset t k v

/-- Property deletion `delete m[k]`. -/
def adel {α : Type} : List (String × α) → String → List (String × α)
  | [], _ => []
  | p :: t, k => if p.1 = k then adel t k else p :: adel t k

theorem aget_aset_self {α : Type} (m : List (String × α)) (k : String) (v : α) :
    aget (aset m k v) k = some v := by
  induction m with
  | nil => simp [aset, aget]
  | cons p t ih =>
    by_cases h : p.1 = k
    · simp [aset, aget, h]
    · simp [aset, aget, h, ih]

theorem aget_aset_ne {α : Type} (m : List (String × α)) (k k' : String) (v : α)
    (h : k ≠ k') : aget (aset m k v) k' = aget m k' := by
  induction m with
  | nil => simp [aset, aget, h, Ne.symm h]
  | cons p t ih =>
    by_cases hp : p.1 = k
    · simp [aset, aget, hp, h, Ne.symm h]
    · by_cases hp' : p.1 = k' <;> simp [aset, aget, hp, hp', Ne.symm h, ih]

theorem aget_adel_self {α : Type} (m : List (String × α)) (k : String) :
    aget (adel m k) k = none := by
  induction m with
  | nil => simp [adel, aget]
  | cons p t ih =>
    by_cases h : p.1 = k
    · simp [adel, h, ih]
    · simp [adel, aget, h, ih]

theorem aget_adel_ne {α : Type} (m : List (String × α)) (k k' : String)
    (h : k ≠ k') : aget (adel m k) k' = aget m k' := by
  induction m with
  | nil => simp [adel]
  | cons p t ih =>
    by_cases hp : p.1 = k
    · have hne : p.1 ≠ k' := by rw [hp]; exact h
      simp [adel, aget, hp, hne, h, Ne.symm h, ih]
    · by_cases hp' : p.1 = k' <;> simp [adel, aget, hp, hp', h, Ne.symm h, ih]

theorem adel_eq_of_aget_none {α : Type} (m : List (String × α)) (k : String)
    (h : aget m k = none) : adel m k = m := by
  induction m with
  | nil => rfl
  | cons p t ih =>
    by_cases hp : p.1 = k
    · simp [aget, hp] at h
    · simp [aget, hp] at h
      simp [adel, hp, ih h]

/-! Decimal rendering: correctness of `Nat.repr`, needed because the server
mints display names as the string `'u' + N` and searches that namespace. -/

/-- Numeric value of a decimal digit character. -/
def digitVal (c : Char) : Nat := c.toNat - 48

/-- Decode a list of decimal digit characters (most significant first). -/
def decList (l : List Char) : Nat := l.foldl (fun a c => 10 * a + digitVal c) 0

theorem decList_append_digit (l : List Char) (c : Char) :
    decList (l ++ [c]) = 10 * decList l + digitVal c := by
  simp [decList, List.foldl_append]

theorem digitVal_digitChar (n : Nat) (h : n < 10) :
    digitVal (Nat.digitChar n) = n := by
  interval_cases n <;> rfl

theorem toDigitsCore_append (fuel : Nat) : ∀ (n : Nat) (ds : List Char),
    Nat.toDigitsCore 10 fuel n ds = Nat.toDigitsCore 10 fuel n [] ++ ds := by
  induction fuel with
  | zero => intro n ds; rfl
  | succ f ih =>
    intro n ds
    simp only [Nat.toDigitsCore]
    by_cases h : n / 10 = 0
    · simp [h]
    · simp only [h, if_false]
      rw [ih (n / 10) [Nat.digitChar (n % 10)], ih (n / 10) (Nat.digitChar (n % 10) :: ds)]
      simp

theorem decList_toDigitsCore (fuel : Nat) : ∀ n : Nat, n < fuel →
    decList (Nat.toDigitsCore 10 fuel n []) = n := by
  induction fuel with
  | zero => intro n h; omega
  | succ f ih =>
    intro n h
    simp only [Nat.toDigitsCore]
    by_cases h0 : n / 10 = 0
    · have hn : n < 10 := by omega
      simp only [h0, if_true, decList, List.foldl]
      rw [digitVal_digitChar (n % 10) (Nat.mod_lt n (by omega))]
      simp
      omega
    · simp only [h0, if_false]
      rw [toDigitsCore_append, decList_append_digit]
      have hlt : n / 10 < f := by
        have h1 : 0 < n := by
          by_contra hc
          have : n = 0 := by omega
          simp [this] at h0
        have : n / 10 < n := Nat.div_lt_self h1 (by omega)
        omega
      rw [ih (n / 10) hlt, digitVal_digitChar (n % 10) (Nat.mod_lt n (by omega))]
      omega

theorem decList_repr (n : Nat) : decList (Nat.repr n).data = n := by
  show decList (Nat.toDigits 10 n).asString.data = n
  show decList (Nat.toDigits 10 n) = n
  exact decList_toDigitsCore (n + 1) n (Nat.lt_succ_self n)

theorem repr_ne_empty (n : Nat) : Nat.repr n ≠ "" := by
  intro h
  have h0 := decList_repr n
  rw [h] at h0
  simp [decList] at h0
  rw [← h0] at h
  exact absurd h (by decide)

/-- The minted display name `'u' + N`. -/
def uName (j : Nat) : String := "u" ++ Nat.repr j

/-- Decode a minted name back to its number (drop the leading u). -/
def decodeU (s : String) : Nat := decList (s.data.drop 1)

theorem decodeU_uName (j : Nat) : decodeU (uName j) = j := by
  show decList (("u" ++ Nat.repr j).data.drop 1) = j
  have hd : ("u" ++ Nat.repr j).data = 'u' :: (Nat.repr j).data := by
    cases h : Nat.repr j with
    | mk l => rfl
  rw [hd]
  simp [decList_repr]

theorem uName_inj {a b : Nat} (h : uName a = uName b) : a = b := by
  rw [← decodeU_uName a, ← decodeU_uName b, h]

/-! The global client-data object `cD` of server.js and its maps. -/

structure CD where
  connectionIndex : Nat
  nameIndex : Nat
  userName : List (String × String)
  nickName : List (String × Option String)
  teamName : List (String × Option String)
  id : List (String × String)
  room : List (String × String)
  hostID : List (String × String)
deriving DecidableEq

/-- The freshly started server state. -/
def cd0 : CD := ⟨0, 0, [], [], [], [], [], []⟩

/-- JS truthiness of a possibly-undefined string (`undefined` and `""` are falsy). -/
def jsTruthyStr : Option String → Bool
  | some s => s != ""
  | none => false

/-- JS truthiness of a lookup in a map whose stored values may be `null`. -/
def jsTruthyOpt : Option (Option String) → Bool
  | some (some s) => s != ""
  | _ => false

/-- Flatten a lookup in a nullable-valued map to its JS value (`undefined`/`null` both map to none). -/
def jsValOpt : Option (Option String) → Option String
  | some v => v
  | none => none

/-- A possibly-undefined string as used in string concatenation: JS renders undefined as "undefined". -/
def jsStr : Option String → String
  | some s => s
  | none => "undefined"

/-- Embeds `nameInUse(nameToCheck, nameMap)` for string-valued maps (userName). -/
def nameInUse (nameToCheck : String) : List (String × String) → Bool
  | [] => false
  | p :: t => if p.2 = nameToCheck then true else nameInUse nameToCheck t

/-- Embeds `nameInUse(nameToCheck, nameMap)` applied to nickName, whose stored values
may be null; in JS `null == s` is false for a string s. -/
def nickInUse (nameToCheck : String) : List (String × Option String) → Bool
  | [] => false
  | p :: t => if p.2 = some nameToCheck then true else nickInUse nameToCheck t

/-- The composite lookup `cD.hostID[cD.room[clientID]]`. -/
def hostFor (st : CD) (clientID : String) : Option String :=
  match aget st.room clientID with
  | some r => aget st.hostID r
  | none => none

inductive DMode where
  | comma
  | prens
deriving DecidableEq

/-- Embeds `setDisplayName(clientID, mode)`. -/
def setDisplayName (st : CD) (clientID : String) (mode : DMode) : String :=
  let userName : String :=
    if hostFor st clientID = some clientID then "host" else jsStr (aget st.userName clientID)
  if jsTruthyOpt (aget st.nickName clientID) then
    let nick := jsStr (jsValOpt (aget st.nickName clientID))
    let teamString :=
      if jsTruthyOpt (aget st.teamName clientID)
      then "." ++ jsStr (jsValOpt (aget st.teamName clientID)) else ""
    match mode with
    | DMode.comma => nick ++ teamString ++ ", " ++ userName
    | DMode.prens => nick ++ teamString ++ " (" ++ userName ++ ")"
  else userName

/-- Embeds `removeUserFromMaps(clientID)`, preserving the source order: host slot
of the current room first, then the id map entry (looked up through userName),
then userName, then nickName/teamName (only when truthy), then room. -/
def removeUserFromMaps (st : CD) (clientID : String) : CD :=
  let st1 :=
    match aget st.room clientID with
    | some r =>
        if aget st.hostID r = some clientID
        then { st with hostID := adel st.hostID r } else st
    | none => st
  let st2 :=
    match aget st1.userName clientID with
    | some n => { st1 with id := adel st1.id n }
    | none => st1
  let st3 := { st2 with userName := adel st2.userName clientID }
  let st4 :=
    if jsTruthyOpt (aget st3.nickName clientID)
    then { st3 with nickName := adel st3.nickName clientID } else st3
  let st5 :=
    if jsTruthyOpt (aget st4.teamName clientID)
    then { st4 with teamName := adel st4.teamName clientID } else st4
  { st5 with room := adel st5.room clientID }

/-- Embeds the do-while loop of the normal-mode connection branch: increment
`nameIndex` until `'u' + nameIndex` is not in use.  The fuel argument is an
artifact of the embedding; theorem `mintIdx_fresh` below shows the base case is
never reached when the fuel is `used.length + 1`, which is the termination
argument for the source loop. -/
def mintIdx (used : List (String × String)) : Nat → Nat → Nat
  | 0, idx => idx + 1
  | fuel + 1, idx =>
      if nameInUse (uName (idx + 1)) used then mintIdx used fuel (idx + 1) else idx + 1

/-! Outbound traffic: every `io.to(target).emit(event, payload)` and
`socket.to(room).emit(event, payload)` of the handlers. -/

inductive Payload where
  | text (s : String)
  | nameIs (name : String)
  | roomJoining (message : String) (userName : Option String) (nickName : Option (Option String))
  | newGameClient (clientName : Option String) (requestStream : Bool) (player : Option String)
      (nickName : Option String) (teamName : Option String)
  | clientDisconnected (userName : Option String)
  | disconnectByServer (name : Option String) (originator : String)
  | sid (s : String)
  | signal (dest : String)
deriving DecidableEq

inductive Emit where
  | toTarget (target : Option String) (event : String) (payload : Payload)
  | toRoomExceptSender (room : Option String) (sender : String) (event : String) (payload : Payload)
deriving DecidableEq

/-! The connection handler: name minting, reattach, and nickname disambiguation. -/

inductive ConnMode where
  | normal
  | reconnect
deriving DecidableEq

/-- The `socket.handshake.auth` hints; `setDefault` turns missing fields into null,
modelled by `Option`. -/
structure Auth where
  mode : ConnMode
  currentName : String
  nickName : Option String
  teamName : Option String
deriving DecidableEq

/-- JS `s.slice(1)` for the ASCII identifiers involved. -/
def strSlice1 (s : String) : String := String.mk (s.data.drop 1)

/-- Embeds the body of `io.on('connection', ...)`: assigns `user_name` (minted in
normal mode, the client-supplied `currentName` on re-connect), disambiguates the
nickname by appending `user_name.slice(1)` on collision, records the four map
entries, and tells a non-host its network name. -/
def connectionHandler (st : CD) (sid : String) (auth : Auth) : CD × List Emit :=
  let st := { st with connectionIndex := st.connectionIndex + 1 }
  let mint :=
    match auth.mode with
    | ConnMode.normal =>
        let j := mintIdx st.userName (st.userName.length + 1) st.nameIndex
        (uName j, { st with nameIndex := j })
    | ConnMode.reconnect => (auth.currentName, st)
  let user_name := mint.1
  let st := mint.2
  let nick_name : Option String :=
    match auth.nickName with
    | some n =>
        if n != "" && nickInUse n st.nickName
        then some (n ++ strSlice1 user_name) else some n
    | none => none
  let team_name := auth.teamName
  let st := { st with
    userName := aset st.userName sid user_name
    nickName := aset st.nickName sid nick_name
    teamName := aset st.teamName sid team_name
    id := aset st.id user_name sid }
  let emits :=
    if hostFor st sid = some sid then []
    else [Emit.toTarget (some sid) "your name is" (Payload.nameIs (jsStr (aget st.userName sid)))]
  (st, emits)

/-- The `roomJoin` message after `setDefault` handling (the claims concern
messages carrying an actual room name). -/
structure RoomJoinMsg where
  roomName : String
  requestStream : Bool
  player : Option String
  hostOrClient : String
deriving DecidableEq

/-- Embeds `socket.on('roomJoin', ...)`.  `socket.join(roomName)` is a transport
capability with no effect on the `cD` maps; room membership is the `room` map. -/
def roomJoinHandler (st : CD) (sid : String) (msg : RoomJoinMsg) : CD × List Emit :=
  let nickName := jsValOpt (aget st.nickName sid)
  let teamName := jsValOpt (aget st.teamName sid)
  let displayName := setDisplayName st sid DMode.prens
  if msg.hostOrClient = "client" then
    if jsTruthyStr (aget st.hostID msg.roomName) then
      let st1 := { st with room := aset st.room sid msg.roomName }
      (st1,
       [Emit.toTarget (some sid) "room-joining-message"
          (Payload.roomJoining ("You have joined room " ++ jsStr (aget st1.room sid) ++
            " and your client name is " ++ displayName ++ ".") (aget st1.userName sid) none),
        Emit.toTarget (aget st.hostID msg.roomName) "new-game-client"
          (Payload.newGameClient (aget st1.userName sid) msg.requestStream msg.player
            nickName teamName),
        Emit.toTarget (aget st.hostID msg.roomName) "chat message"
          (Payload.text (displayName ++ " is a new client in room " ++ msg.roomName ++ "."))])
    else
      (st, [Emit.toTarget (some sid) "room-joining-message"
              (Payload.roomJoining ("Sorry, there is no host yet for room " ++ msg.roomName ++ ".")
                (aget st.userName sid) none)])
  else if msg.hostOrClient = "host" then
    if jsTruthyStr (aget st.hostID msg.roomName) then
      (st, [Emit.toTarget (some sid) "room-joining-message"
              (Payload.roomJoining ("Sorry, there is already a host for room " ++ msg.roomName ++ ".")
                (aget st.userName sid) none)])
    else
      let st1 := { st with room := aset st.room sid msg.roomName }
      let e1 := Emit.toTarget (some sid) "room-joining-message"
          (Payload.roomJoining ("You have joined room " ++ jsStr (aget st1.room sid) ++
            " and your client name is " ++ displayName ++ ".") (aget st1.userName sid)
            (some nickName))
      let st2 :=
        match aget st1.room sid with
        | some r => { st1 with hostID := aset st1.hostID r sid }
        | none => st1
      let e2 := Emit.toTarget (some sid) "room-joining-message"
          (Payload.roomJoining ("You are the host of room " ++ jsStr (aget st2.room sid) ++ ".")
            (aget st2.userName sid) none)
      (st2, [e1, e2])
  else (st, [])

/-- Embeds `socket.on('disconnect', ...)`: guarded by the truthiness of
`cD.userName[socket.id]`; reads the display name, the room host and the user
name from the current maps, emits the two notifications to that host, and only
then removes the user from the maps. -/
def disconnectHandler (st : CD) (sid : String) : CD × List Emit :=
  if jsTruthyStr (aget st.userName sid) then
    let displayName := setDisplayName st sid DMode.prens
    let message := displayName ++ " has disconnected."
    let hostID := hostFor st sid
    (removeUserFromMaps st sid,
     [Emit.toTarget hostID "chat message" (Payload.text (message ++ ".")),
      Emit.toTarget hostID "client-disconnected" (Payload.clientDisconnected (aget st.userName sid))])
  else (st, [])

/-! The idle-lifecycle timers (`setTimer` and the `logoffTimer` callback).
Delays are tracked in minutes; a scheduled alarm is a `some` delay and a fired
or cleared alarm is `none`. -/

structure TimerState where
  idleTime_m : Nat
  warning : Option Nat
  logoff : Option Nat
deriving DecidableEq

inductive TReset where
  | init
  | restart
  | extend
deriving DecidableEq

/-- Embeds `setTimer(reset, t_min)`: "initialize" and "restart" set
`idleTime_m = t_min` and schedule both alarms (the warning at half the budget);
"extend" clears both and re-schedules only the logoff alarm, leaving
`idleTime_m` alone.  The division by two is exact for every call in the source
(t_min is 40 there). -/
def setTimer (ts : TimerState) (reset : TReset) (t_min : Nat) : TimerState :=
  match reset with
  | TReset.init => { idleTime_m := t_min, warning := some (t_min / 2), logoff := some t_min }
  | TReset.restart => { idleTime_m := t_min, warning := some (t_min / 2), logoff := some t_min }
  | TReset.extend => { ts with warning := none, logoff := some t_min }

/-- JS `x.toFixed(1)` for the whole-minute values the timer uses. -/
def toFixed1 (n : Nat) : String := Nat.repr n ++ ".0"

/-- Embeds the `logoffTimer` callback.  Returns the new maps, the new timer
state (the fired alarm is spent), the emitted messages, and whether the server
itself closed the socket (`socket.disconnect()`).  A non-host is sent
`disconnectByServer` and its map entries are erased only when its socket then
actually disconnects (see `idleEvict`). -/
def logoffFired (st : CD) (sid : String) (ts0 : TimerState) : CD × TimerState × List Emit × Bool :=
  let ts := { ts0 with logoff := none }
  let disconnectNotice := "Idle for " ++ toFixed1 ts.idleTime_m ++
    " minutes. Network socket disconnected."
  let advice := "</br></br>Click <strong>Chat</strong> before disconnection for 40 minutes of network time." ++
    "</br></br>To <strong>reconnect:</strong> hosts click <strong>Create</strong>, clients click <strong>Connect</strong>."
  if hostFor st sid = some sid then
    let n_users := st.userName.length
    if n_users = 1 || ts.idleTime_m ≥ 180 then
      (removeUserFromMaps st sid, ts,
       [Emit.toTarget (some sid) "chat message" (Payload.text (disconnectNotice ++ advice))], true)
    else
      let ts1 := setTimer { ts with idleTime_m := ts.idleTime_m + 5 } TReset.extend 5
      (st, ts1, [], false)
  else
    (st, ts,
     [Emit.toTarget (some sid) "chat message" (Payload.text disconnectNotice),
      Emit.toTarget (some sid) "disconnectByServer"
        (Payload.disconnectByServer (aget st.userName sid) "server")], false)

/-- The complete idle eviction of a non-host: the fired alarm emits
`disconnectByServer`; the notified client closes its socket, which fires the
server's disconnect handler. -/
def idleEvict (st : CD) (sid : String) (ts : TimerState) : CD × TimerState × List Emit :=
  let r := logoffFired st sid ts
  let d := disconnectHandler r.1 sid
  (d.1, r.2.1, r.2.2.1 ++ d.2)

/-! The pure relay handlers. -/

/-- Embeds `socket.on('echo-from-Client-to-Server', ...)`. -/
def echoClientHandler (st : CD) (sid : String) (msg : String) : CD × List Emit :=
  if msg = "server" then
    (st, [Emit.toTarget (some sid) "echo-from-Server-to-Client" (Payload.text "server")])
  else if msg = "host" then
    (st, [Emit.toTarget (hostFor st sid) "echo-from-Server-to-Host" (Payload.sid sid)])
  else (st, [])

/-- Embeds `socket.on('echo-from-Host-to-Server', ...)`: the payload is the
originating client's socket id. -/
def echoHostHandler (st : CD) (msg : String) : CD × List Emit :=
  (st, [Emit.toTarget (some msg) "echo-from-Server-to-Client" (Payload.text "host")])

/-- A signaling message; only its routing field (named `to` in the source) is
interpreted by the server, the rest of the payload is opaque. -/
structure SignalMsg where
  dest : String
deriving DecidableEq

/-- Embeds `socket.on('signaling message', ...)`. -/
def signalingHandler (st : CD) (sid : String) (msg : SignalMsg) : CD × List Emit :=
  let target := if msg.dest = "host" then hostFor st sid else aget st.id msg.dest
  (st, [Emit.toTarget target "signaling message" (Payload.signal msg.dest)])

/-- Embeds `socket.on('client-mK-event', ...)`. -/
def clientMKHandler (st : CD) (sid : String) (msg : String) : CD × List Emit :=
  (st, [Emit.toTarget (hostFor st sid) "client-mK-StH-event" (Payload.text msg)])

/-- Embeds `socket.on('command-from-host-to-all-clients', ...)`. -/
def commandHandler (st : CD) (sid : String) (msg : String) : CD × List Emit :=
  (st, [Emit.toTarget (aget st.room sid) "command-from-host-to-all-clients" (Payload.text msg)])

/-! Correctness of the minting loop. -/

theorem nameInUse_mem (n : String) (m : List (String × String)) :
    nameInUse n m = true ↔ n ∈ m.map Prod.snd := by
  induction m with
  | nil => simp [nameInUse]
  | cons p t ih =>
    by_cases h : p.2 = n
    · simp [nameInUse, h]
    · simp [nameInUse, h, ih, Ne.symm h]

/-- Pigeonhole: among the `used.length + 1` candidate names past any index, one
is not in use (the value multiset of the map is too small to block them all). -/
theorem exists_fresh (used : List (String × String)) (idx : Nat) :
    ∃ j, idx < j ∧ j ≤ idx + (used.length + 1) ∧ nameInUse (uName j) used = false := by
  by_contra hc
  push_neg at hc
  have hmem : ∀ j ∈ Finset.Ioc idx (idx + (used.length + 1)),
      uName j ∈ (used.map Prod.snd).toFinset := by
    intro j hj
    rw [Finset.mem_Ioc] at hj
    have hne := hc j hj.1 hj.2
    have ht : nameInUse (uName j) used = true := by
      cases hb : nameInUse (uName j) used
      · exact absurd hb hne
      · rfl
    rw [List.mem_toFinset]
    exact (nameInUse_mem _ _).mp ht
  have hsub : (Finset.Ioc idx (idx + (used.length + 1))).image uName ⊆
      (used.map Prod.snd).toFinset := by
    intro s hs
    rw [Finset.mem_image] at hs
    obtain ⟨j, hj, rfl⟩ := hs
    exact hmem j hj
  have hcard1 : ((Finset.Ioc idx (idx + (used.length + 1))).image uName).card =
      used.length + 1 := by
    rw [Finset.card_image_of_injective _ (fun _ _ h => uName_inj h), Nat.card_Ioc]
    omega
  have hcard2 := Finset.card_le_card hsub
  have hcard3 := List.toFinset_card_le (used.map Prod.snd)
  rw [hcard1] at hcard2
  rw [List.length_map] at hcard3
  omega

/-- With any sufficient fuel, the loop returns the least unused candidate past
the starting index. -/
theorem mintIdx_spec (used : List (String × String)) :
    ∀ (fuel idx : Nat),
    (∃ j, idx < j ∧ j ≤ idx + fuel ∧ nameInUse (uName j) used = false) →
    nameInUse (uName (mintIdx used fuel idx)) used = false ∧
    idx < mintIdx used fuel idx ∧
    ∀ k, idx < k → k < mintIdx used fuel idx → nameInUse (uName k) used = true := by
  intro fuel
  induction fuel with
  | zero =>
    intro idx h
    obtain ⟨j, h1, h2, _⟩ := h
    omega
  | succ f ih =>
    intro idx h
    by_cases hb : nameInUse (uName (idx + 1)) used = true
    · have hres : mintIdx used (f + 1) idx = mintIdx used f (idx + 1) := by
        simp [mintIdx, hb]
      obtain ⟨j, h1, h2, h3⟩ := h
      have hj1 : idx + 1 < j := by
        rcases Nat.lt_or_ge (idx + 1) j with hlt | hge
        · exact hlt
        · have : j = idx + 1 := by omega
          rw [this] at h3
          rw [h3] at hb
          exact absurd hb (by simp)
      have ihr := ih (idx + 1) ⟨j, hj1, by omega, h3⟩
      rw [hres]
      refine ⟨ihr.1, by omega, ?_⟩
      intro k hk1 hk2
      by_cases hke : k = idx + 1
      · rw [hke]; exact hb
      · exact ihr.2.2 k (by omega) hk2
    · have hbf : nameInUse (uName (idx + 1)) used = false := by
        cases hx : nameInUse (uName (idx + 1)) used
        · rfl
        · exact absurd hx hb
      have hres : mintIdx used (f + 1) idx = idx + 1 := by
        simp [mintIdx, hbf]
      rw [hres]
      exact ⟨hbf, by omega, fun k hk1 hk2 => by omega⟩

/-- The minting loop as called by the connection handler: the resulting name is
fresh, the counter strictly advanced, and every skipped candidate was in use
(so the result is the least unused `u<N>` past the previous counter value).
Freshness in particular shows the fuel bound is never exhausted, which is the
termination argument for the unbounded source loop. -/
theorem mintIdx_fresh (used : List (String × String)) (idx : Nat) :
    nameInUse (uName (mintIdx used (used.length + 1) idx)) used = false ∧
    idx < mintIdx used (used.length + 1) idx ∧
    ∀ k, idx < k → k < mintIdx used (used.length + 1) idx →
      nameInUse (uName k) used = true :=
  mintIdx_spec used (used.length + 1) idx (exists_fresh used idx)

/-! Field-wise description of `removeUserFromMaps`. -/

theorem removeUser_fields (st : CD) (c : String) :
    (removeUserFromMaps st c).connectionIndex = st.connectionIndex ∧
    (removeUserFromMaps st c).nameIndex = st.nameIndex ∧
    (removeUserFromMaps st c).userName = adel st.userName c ∧
    (removeUserFromMaps st c).nickName =
      (if jsTruthyOpt (aget st.nickName c) then adel st.nickName c else st.nickName) ∧
    (removeUserFromMaps st c).teamName =
      (if jsTruthyOpt (aget st.teamName c) then adel st.teamName c else st.teamName) ∧
    (removeUserFromMaps st c).id =
      (match aget st.userName c with
       | some n => adel st.id n
       | none => st.id) ∧
    (removeUserFromMaps st c).room = adel st.room c ∧
    (removeUserFromMaps st c).hostID =
      (match aget st.room c with
       | some r => if aget st.hostID r = some c then adel st.hostID r else st.hostID
       | none => st.hostID) := by
  unfold removeUserFromMaps
  cases h1 : aget st.room c with
  | none =>
    cases h2 : aget st.userName c with
    | none =>
      by_cases h3 : jsTruthyOpt (aget st.nickName c) <;>
        by_cases h4 : jsTruthyOpt (aget st.teamName c) <;> simp [h1, h2, h3, h4]
    | some n =>
      by_cases h3 : jsTruthyOpt (aget st.nickName c) <;>
        by_cases h4 : jsTruthyOpt (aget st.teamName c) <;> simp [h1, h2, h3, h4]
  | some r =>
    by_cases h0 : aget st.hostID r = some c <;>
      cases h2 : aget st.userName c <;>
      by_cases h3 : jsTruthyOpt (aget st.nickName c) <;>
        by_cases h4 : jsTruthyOpt (aget st.teamName c) <;> simp [h1, h2, h0, h3, h4]

/-- Two client-data states with equal fields are equal. -/
theorem cd_eq_of_fields {a b : CD}
    (h1 : a.connectionIndex = b.connectionIndex) (h2 : a.nameIndex = b.nameIndex)
    (h3 : a.userName = b.userName) (h4 : a.nickName = b.nickName)
    (h5 : a.teamName = b.teamName) (h6 : a.id = b.id)
    (h7 : a.room = b.room) (h8 : a.hostID = b.hostID) : a = b := by
  cases a
  cases b
  simp_all

/-- A state with one host H of room r1 and one further connection A, as reached
by two normal connections and a host roomJoin; used to instantiate theorems. -/
def stHosted : CD :=
  { connectionIndex := 2, nameIndex := 2
    userName := [("H", "u1"), ("A", "u2")]
    nickName := [("H", none), ("A", none)]
    teamName := [("H", none), ("A", none)]
    id := [("u1", "H"), ("u2", "A")]
    room := [("H", "r1")]
    hostID := [("r1", "H")] }

/-- Claim C1: the hostID map records at most one host per room name, and a
host-join (`roomJoin` with `hostOrClient = 'host'`) of a room that already has
a live host returns the state exactly unchanged -- existing host, memberships
and every map as before -- and emits only the already-hosted advisory to the
attempter. -/
theorem roomJoin_second_host_rejected (st : CD) (sid : String) (msg : RoomJoinMsg)
    (hmsg : msg.hostOrClient = "host")
    (hhosted : jsTruthyStr (aget st.hostID msg.roomName) = true) :
    roomJoinHandler st sid msg =
      (st, [Emit.toTarget (some sid) "room-joining-message"
        (Payload.roomJoining
          ("Sorry, there is already a host for room " ++ msg.roomName ++ ".")
          (aget st.userName sid) none)]) := by
  have hc : msg.hostOrClient ≠ "client" := by rw [hmsg]; decide
  simp [roomJoinHandler, hmsg, hc, hhosted]

/-- Witness for C1 at a concrete hosted room. -/
theorem roomJoin_second_host_rejected_witness :
    (RoomJoinMsg.mk "r1" false none "host").hostOrClient = "host" ∧
    jsTruthyStr (aget stHosted.hostID "r1") = true ∧
    roomJoinHandler stHosted "A" (RoomJoinMsg.mk "r1" false none "host") =
      (stHosted, [Emit.toTarget (some "A") "room-joining-message"
        (Payload.roomJoining "Sorry, there is already a host for room r1."
          (some "u2") none)]) := by
  refine ⟨rfl, by decide, ?_⟩
  have h := roomJoin_second_host_rejected stHosted "A"
    (RoomJoinMsg.mk "r1" false none "host") rfl (by decide)
  rw [h]
  decide

/-- Claim C5: disconnecting a connection that has a registered name emits the
two host notifications computed entirely from the pre-removal maps (target is
the pre-state host of the room, the chat line uses the pre-state display name,
the event carries the pre-state user name), and only then replaces the state by
`removeUserFromMaps`; afterwards the same host lookup yields nothing, so the
routing targets must be captured before the mutation. -/
theorem disconnect_notifies_from_pre_state (st : CD) (sid : String)
    (h : jsTruthyStr (aget st.userName sid) = true) :
    disconnectHandler st sid =
      (removeUserFromMaps st sid,
       [Emit.toTarget (hostFor st sid) "chat message"
          (Payload.text (setDisplayName st sid DMode.prens ++ " has disconnected." ++ ".")),
        Emit.toTarget (hostFor st sid) "client-disconnected"
          (Payload.clientDisconnected (aget st.userName sid))]) ∧
    hostFor (removeUserFromMaps st sid) sid = none := by
  constructor
  · simp [disconnectHandler, h]
  · unfold hostFor
    rw [(removeUser_fields st sid).2.2.2.2.2.2.1, aget_adel_self]

/-- Witness for C5: disconnecting the host of the concrete hosted state. -/
theorem disconnect_notifies_from_pre_state_witness :
    jsTruthyStr (aget stHosted.userName "H") = true ∧
    (disconnectHandler stHosted "H" =
      (removeUserFromMaps stHosted "H",
       [Emit.toTarget (hostFor stHosted "H") "chat message"
          (Payload.text (setDisplayName stHosted "H" DMode.prens ++ " has disconnected." ++ ".")),
        Emit.toTarget (hostFor stHosted "H") "client-disconnected"
          (Payload.clientDisconnected (aget stHosted.userName "H"))]) ∧
     hostFor (removeUserFromMaps stHosted "H") "H" = none) :=
  ⟨by decide, disconnect_notifies_from_pre_state stHosted "H" (by decide)⟩

/-- Claim C9: disconnecting a connection whose entries are already gone is a
no-op, not an error: with no registered name the disconnect handler emits
nothing and changes nothing, and `removeUserFromMaps` of an id that is absent
from the maps (its nickName and teamName lookups falsy, its room and userName
lookups undefined) returns the state unchanged. -/
theorem redisconnect_noop (st : CD) (sid : String)
    (hname : aget st.userName sid = none) :
    disconnectHandler st sid = (st, []) ∧
    (jsTruthyOpt (aget st.nickName sid) = false →
     jsTruthyOpt (aget st.teamName sid) = false →
     aget st.room sid = none →
     removeUserFromMaps st sid = st) := by
  constructor
  · simp [disconnectHandler, hname, jsTruthyStr]
  · intro h3 h4 h5
    obtain ⟨f1, f2, f3, f4, f5, f6, f7, f8⟩ := removeUser_fields st sid
    refine cd_eq_of_fields f1 f2 ?_ ?_ ?_ ?_ ?_ ?_
    · rw [f3, adel_eq_of_aget_none _ _ hname]
    · rw [f4, h3]; simp
    · rw [f5, h4]; simp
    · rw [f6, hname]
    · rw [f7, adel_eq_of_aget_none _ _ h5]
    · rw [f8, h5]

/-- Witness for C9: a second disconnect of a connection that connected and
already disconnected once. -/
theorem redisconnect_noop_witness :
    aget ((disconnectHandler ((connectionHandler cd0 "A"
        (Auth.mk ConnMode.normal "" none none)).1) "A").1).userName "A" = none ∧
    (disconnectHandler ((disconnectHandler ((connectionHandler cd0 "A"
        (Auth.mk ConnMode.normal "" none none)).1) "A").1) "A" =
      (((disconnectHandler ((connectionHandler cd0 "A"
        (Auth.mk ConnMode.normal "" none none)).1) "A").1), []) ∧
     (jsTruthyOpt (aget ((disconnectHandler ((connectionHandler cd0 "A"
        (Auth.mk ConnMode.normal "" none none)).1) "A").1).nickName "A") = false →
      jsTruthyOpt (aget ((disconnectHandler ((connectionHandler cd0 "A"
        (Auth.mk ConnMode.normal "" none none)).1) "A").1).teamName "A") = false →
      aget ((disconnectHandler ((connectionHandler cd0 "A"
        (Auth.mk ConnMode.normal "" none none)).1) "A").1).room "A" = none →
      removeUserFromMaps ((disconnectHandler ((connectionHandler cd0 "A"
        (Auth.mk ConnMode.normal "" none none)).1) "A").1) "A" =
        ((disconnectHandler ((connectionHandler cd0 "A"
        (Auth.mk ConnMode.normal "" none none)).1) "A").1))) :=
  ⟨by decide, redisconnect_noop _ "A" (by decide)⟩

/-- Claim C10: the pure relay handlers -- both echo handlers, signaling,
client-mK and command-from-host-to-all-clients -- return the client-data state
exactly unchanged for every sender, state and payload: no map is touched. -/
theorem relay_handlers_leave_maps (st : CD) (sid msg : String) (sm : SignalMsg) :
    (echoClientHandler st sid msg).1 = st ∧
    (echoHostHandler st msg).1 = st ∧
    (signalingHandler st sid sm).1 = st ∧
    (clientMKHandler st sid msg).1 = st ∧
    (commandHandler st sid msg).1 = st := by
  refine ⟨?_, rfl, rfl, rfl, rfl⟩
  unfold echoClientHandler
  split
  · rfl
  · split
    · rfl
    · rfl

/-! String facts for the minted names and nickname suffixes. -/

theorem string_mk_data (s : String) : String.mk s.data = s := by
  cases s
  rfl

theorem strSlice1_uName (j : Nat) : strSlice1 (uName j) = Nat.repr j := by
  unfold strSlice1
  show String.mk (("u" ++ Nat.repr j).data.drop 1) = Nat.repr j
  have hd : ("u" ++ Nat.repr j).data = 'u' :: (Nat.repr j).data := by
    cases h : Nat.repr j with
    | mk l => rfl
  rw [hd]
  exact string_mk_data _

theorem repr_length_pos (n : Nat) : 0 < (Nat.repr n).length := by
  by_contra hc
  push_neg at hc
  have h0 : (Nat.repr n).length = 0 := by omega
  apply repr_ne_empty n
  cases hs : Nat.repr n with
  | mk l =>
    rw [hs] at h0
    cases l with
    | nil => rfl
    | cons a t => simp [String.length] at h0

theorem append_repr_ne (s : String) (n : Nat) : s ++ Nat.repr n ≠ s := by
  intro h
  have hl : (s ++ Nat.repr n).length = s.length := by rw [h]
  rw [String.length_append] at hl
  have := repr_length_pos n
  omega

/-- Claim C7: a normal-mode connection mints the name `u<j>` where `j` is the
first counter value past the previous one whose name is not in use: the minted
name is fresh, the counter strictly increases to exactly `j` (monotone, and
only the normal-mode mint moves it -- a re-connect reattach leaves it alone),
and every candidate skipped on the way was in use.  Freshness despite the
`used.length + 1` fuel bound is the termination of the source do-while loop on
every finite registry. -/
theorem normal_mode_mints_fresh_name (st : CD) (sid : String) (auth : Auth)
    (hmode : auth.mode = ConnMode.normal) :
    nameInUse (uName (mintIdx st.userName (st.userName.length + 1) st.nameIndex))
      st.userName = false ∧
    st.nameIndex < mintIdx st.userName (st.userName.length + 1) st.nameIndex ∧
    (∀ k, st.nameIndex < k →
      k < mintIdx st.userName (st.userName.length + 1) st.nameIndex →
      nameInUse (uName k) st.userName = true) ∧
    aget (connectionHandler st sid auth).1.userName sid =
      some (uName (mintIdx st.userName (st.userName.length + 1) st.nameIndex)) ∧
    (connectionHandler st sid auth).1.nameIndex =
      mintIdx st.userName (st.userName.length + 1) st.nameIndex ∧
    (∀ auth2 : Auth, auth2.mode = ConnMode.reconnect →
      (connectionHandler st sid auth2).1.nameIndex = st.nameIndex) := by
  obtain ⟨hf, hlt, hmin⟩ := mintIdx_fresh st.userName st.nameIndex
  refine ⟨hf, hlt, hmin, ?_, ?_, ?_⟩
  · simp [connectionHandler, hmode, aget_aset_self]
  · simp [connectionHandler, hmode]
  · intro auth2 h2
    simp [connectionHandler, h2]

/-- Witness for C7 on the empty registry plus a concrete reattach. -/
theorem normal_mode_mints_fresh_name_witness :
    (Auth.mk ConnMode.normal "" none none).mode = ConnMode.normal ∧
    nameInUse (uName (mintIdx cd0.userName (cd0.userName.length + 1) cd0.nameIndex))
      cd0.userName = false ∧
    aget (connectionHandler cd0 "A" (Auth.mk ConnMode.normal "" none none)).1.userName "A" =
      some (uName 1) ∧
    (connectionHandler cd0 "A" (Auth.mk ConnMode.normal "" none none)).1.nameIndex = 1 ∧
    (connectionHandler cd0 "A" (Auth.mk ConnMode.reconnect "u7" none none)).1.nameIndex = 0 := by
  have h := normal_mode_mints_fresh_name cd0 "A" (Auth.mk ConnMode.normal "" none none) rfl
  exact ⟨rfl, h.1, h.2.2.2.1, h.2.2.2.2.1,
    h.2.2.2.2.2 (Auth.mk ConnMode.reconnect "u7" none none) rfl⟩

/-- A state with one live connection A (name u1) whose nickname is Alice; used
to instantiate the nickname-collision theorem. -/
def stNick : CD :=
  { connectionIndex := 1, nameIndex := 1
    userName := [("A", "u1")]
    nickName := [("A", some "Alice")]
    teamName := [("A", none)]
    id := [("u1", "A")]
    room := []
    hostID := [] }

/-- Claim C8: when a normal-mode connection registers a nickname that another
connection currently holds, the stored nickname is the requested one with the
new connection's numeric identity appended (the digits of its minted `u<N>`
name), which is never equal to the requested nickname; every other connection's
stored nickname is left untouched, so the first registration is never
overwritten and the two stored nicknames differ. -/
theorem nickname_collision_disambiguated (st : CD) (sid : String) (auth : Auth) (nick : String)
    (hmode : auth.mode = ConnMode.normal)
    (hnick : auth.nickName = some nick)
    (hne : nick ≠ "")
    (hinuse : nickInUse nick st.nickName = true) :
    aget (connectionHandler st sid auth).1.nickName sid =
      some (some (nick ++ Nat.repr (mintIdx st.userName (st.userName.length + 1) st.nameIndex))) ∧
    nick ++ Nat.repr (mintIdx st.userName (st.userName.length + 1) st.nameIndex) ≠ nick ∧
    (∀ sid2, sid2 ≠ sid →
      aget (connectionHandler st sid auth).1.nickName sid2 = aget st.nickName sid2) := by
  refine ⟨?_, append_repr_ne nick _, ?_⟩
  · simp [connectionHandler, hmode, hnick, hne, hinuse, strSlice1_uName, aget_aset_self]
  · intro sid2 hs
    simp [connectionHandler, hmode, hnick, hne, hinuse,
      aget_aset_ne _ _ _ _ (Ne.symm hs)]

/-- Witness for C8: a second Alice arrives; it is stored as Alice2 while the
first stays Alice. -/
theorem nickname_collision_disambiguated_witness :
    nickInUse "Alice" stNick.nickName = true ∧
    aget (connectionHandler stNick "B" (Auth.mk ConnMode.normal "" (some "Alice") none)).1.nickName
      "B" = some (some ("Alice" ++ Nat.repr 2)) ∧
    aget (connectionHandler stNick "B" (Auth.mk ConnMode.normal "" (some "Alice") none)).1.nickName
      "A" = some (some "Alice") := by
  have h := nickname_collision_disambiguated stNick "B"
    (Auth.mk ConnMode.normal "" (some "Alice") none) "Alice" rfl rfl (by decide) (by decide)
  refine ⟨by decide, h.1, ?_⟩
  rw [h.2.2 "A" (by decide)]
  decide

/-- Claim C2 is refuted by this run of the code: socket A connects normally and
is named u1; socket B then re-connects supplying the hinted name u1, and the
handler records it with no uniqueness check.  Both live connections now carry
the display name u1, and the name-to-id map points u1 at B while the id-to-name
map still gives u1 for A, so the two maps are not mutually inverse. -/
theorem reconnect_duplicates_display_name :
    aget ((connectionHandler ((connectionHandler cd0 "A"
        (Auth.mk ConnMode.normal "" none none)).1) "B"
        (Auth.mk ConnMode.reconnect "u1" none none)).1).userName "A" = some "u1" ∧
    aget ((connectionHandler ((connectionHandler cd0 "A"
        (Auth.mk ConnMode.normal "" none none)).1) "B"
        (Auth.mk ConnMode.reconnect "u1" none none)).1).userName "B" = some "u1" ∧
    aget ((connectionHandler ((connectionHandler cd0 "A"
        (Auth.mk ConnMode.normal "" none none)).1) "B"
        (Auth.mk ConnMode.reconnect "u1" none none)).1).id "u1" = some "B" := by
  decide

/-- Claim C3 is refuted by this run of the code: before the conflicting
reattach the identity binding of u1 belongs to A; the reattach of B claiming u1
is not refused -- the handler emits only the ordinary name assignment (no
rejection of any kind) and silently repoints the u1 binding to B. -/
theorem reconnect_conflict_not_rejected :
    aget ((connectionHandler cd0 "A" (Auth.mk ConnMode.normal "" none none)).1).id "u1" =
      some "A" ∧
    (connectionHandler ((connectionHandler cd0 "A"
        (Auth.mk ConnMode.normal "" none none)).1) "B"
        (Auth.mk ConnMode.reconnect "u1" none none)).2 =
      [Emit.toTarget (some "B") "your name is" (Payload.nameIs "u1")] ∧
    aget ((connectionHandler ((connectionHandler cd0 "A"
        (Auth.mk ConnMode.normal "" none none)).1) "B"
        (Auth.mk ConnMode.reconnect "u1" none none)).1).id "u1" = some "B" := by
  decide

theorem aget_singleton {α : Type} (k k' : String) (v : α) :
    aget [(k, v)] k' = if k = k' then some v else none := by
  simp [aget]

theorem removeUser_hostID_some (st : CD) (c r0 : String)
    (hrm : aget st.room c = some r0) :
    (removeUserFromMaps st c).hostID =
      if aget st.hostID r0 = some c then adel st.hostID r0 else st.hostID := by
  have f8 := (removeUser_fields st c).2.2.2.2.2.2.2
  rw [hrm] at f8
  exact f8

theorem removeUser_hostID_none (st : CD) (c : String)
    (hrm : aget st.room c = none) :
    (removeUserFromMaps st c).hostID = st.hostID := by
  have f8 := (removeUser_fields st c).2.2.2.2.2.2.2
  rw [hrm] at f8
  exact f8

theorem removeUser_id_some (st : CD) (c nm : String)
    (hnm : aget st.userName c = some nm) :
    (removeUserFromMaps st c).id = adel st.id nm := by
  have f6 := (removeUser_fields st c).2.2.2.2.2.1
  rw [hnm] at f6
  exact f6

/-- A live connection A with truthy nickname and team that hosts room r1; used
to instantiate the disconnect-cleanup theorem. -/
def stW4 : CD :=
  { connectionIndex := 1, nameIndex := 1
    userName := [("A", "u1")]
    nickName := [("A", some "Alice")]
    teamName := [("A", some "T")]
    id := [("u1", "A")]
    room := [("A", "r1")]
    hostID := [("r1", "A")] }

/-- Claim C4 (amended): disconnecting a connection with a registered name
removes its userName, room and id entries and the host slot of its current
room; its nickName and teamName entries are removed provided their stored
values are truthy (absent or non-null non-empty), and it vanishes from the
hostID and id maps provided it holds no host slot for a room other than its
current one and no identity binding other than its own name -- the situations
excluded by the hypotheses are exactly the leaks of the counterexample and of
a host that re-joined another room. -/
theorem disconnect_removes_entries (st : CD) (sid : String)
    (h1 : jsTruthyStr (aget st.userName sid) = true)
    (hnick : aget st.nickName sid = none ∨ jsTruthyOpt (aget st.nickName sid) = true)
    (hteam : aget st.teamName sid = none ∨ jsTruthyOpt (aget st.teamName sid) = true)
    (hhost : ∀ r, aget st.hostID r = some sid → aget st.room sid = some r)
    (hid : ∀ n, aget st.id n = some sid → aget st.userName sid = some n) :
    aget ((disconnectHandler st sid).1).userName sid = none ∧
    aget ((disconnectHandler st sid).1).nickName sid = none ∧
    aget ((disconnectHandler st sid).1).teamName sid = none ∧
    aget ((disconnectHandler st sid).1).room sid = none ∧
    (∀ r, aget ((disconnectHandler st sid).1).hostID r ≠ some sid) ∧
    (∀ n, aget ((disconnectHandler st sid).1).id n ≠ some sid) := by
  have hst : (disconnectHandler st sid).1 = removeUserFromMaps st sid := by
    simp [disconnectHandler, h1]
  rw [hst]
  obtain ⟨f1, f2, f3, f4, f5, f6, f7, f8⟩ := removeUser_fields st sid
  obtain ⟨nm, hnm⟩ : ∃ s, aget st.userName sid = some s := by
    cases hu : aget st.userName sid with
    | none => rw [hu] at h1; simp [jsTruthyStr] at h1
    | some s => exact ⟨s, rfl⟩
  refine ⟨?_, ?_, ?_, ?_, ?_, ?_⟩
  · rw [f3, aget_adel_self]
  · rcases hnick with hn | hn
    · rw [f4]
      have : jsTruthyOpt (aget st.nickName sid) = false := by rw [hn]; rfl
      rw [this]
      simp [hn]
    · rw [f4, hn]
      simp [aget_adel_self]
  · rcases hteam with hn | hn
    · rw [f5]
      have : jsTruthyOpt (aget st.teamName sid) = false := by rw [hn]; rfl
      rw [this]
      simp [hn]
    · rw [f5, hn]
      simp [aget_adel_self]
  · rw [f7, aget_adel_self]
  · intro r hr
    cases hrm : aget st.room sid with
    | none =>
      rw [removeUser_hostID_none st sid hrm] at hr
      have := hhost r hr
      rw [hrm] at this
      cases this
    | some r0 =>
      rw [removeUser_hostID_some st sid r0 hrm] at hr
      by_cases hh : aget st.hostID r0 = some sid
      · rw [if_pos hh] at hr
        by_cases hrr : r = r0
        · rw [hrr, aget_adel_self] at hr
          cases hr
        · rw [aget_adel_ne _ _ _ (fun he => hrr he.symm)] at hr
          have := hhost r hr
          rw [hrm] at this
          injection this with hv
          exact hrr hv.symm
      · rw [if_neg hh] at hr
        have := hhost r hr
        rw [hrm] at this
        injection this with hv
        rw [hv] at hh
        exact hh hr
  · intro n hn2
    rw [removeUser_id_some st sid nm hnm] at hn2
    by_cases hnn : n = nm
    · rw [hnn, aget_adel_self] at hn2
      cases hn2
    · rw [aget_adel_ne _ _ _ (fun he => hnn he.symm)] at hn2
      have := hid n hn2
      rw [hnm] at this
      injection this with hv
      exact hnn hv.symm

/-- Witness for the amended C4: the hosting connection of `stW4` disconnects
and is gone from every map. -/
theorem disconnect_removes_entries_witness :
    jsTruthyStr (aget stW4.userName "A") = true ∧
    aget ((disconnectHandler stW4 "A").1).userName "A" = none ∧
    aget ((disconnectHandler stW4 "A").1).nickName "A" = none ∧
    aget ((disconnectHandler stW4 "A").1).teamName "A" = none ∧
    aget ((disconnectHandler stW4 "A").1).room "A" = none ∧
    aget ((disconnectHandler stW4 "A").1).hostID "r1" ≠ some "A" ∧
    aget ((disconnectHandler stW4 "A").1).id "u1" ≠ some "A" := by
  have hhost : ∀ r, aget stW4.hostID r = some "A" → aget stW4.room "A" = some r := by
    intro r hr
    simp only [stW4] at hr
    rw [aget_singleton] at hr
    by_cases hq : "r1" = r
    · rw [← hq]; decide
    · rw [if_neg hq] at hr; cases hr
  have hid : ∀ n, aget stW4.id n = some "A" → aget stW4.userName "A" = some n := by
    intro n hn
    simp only [stW4] at hn
    rw [aget_singleton] at hn
    by_cases hq : "u1" = n
    · rw [← hq]; decide
    · rw [if_neg hq] at hn; cases hn
  have h := disconnect_removes_entries stW4 "A" (by decide)
    (Or.inr (by decide)) (Or.inr (by decide)) hhost hid
  exact ⟨by decide, h.1, h.2.1, h.2.2.1, h.2.2.2.1, h.2.2.2.2.1 "r1", h.2.2.2.2.2 "u1"⟩

/-- Counterexample to claim C4 as stated: a connection that connects without a
nickname gets a null nickname value recorded; after its disconnect the
nickName map still contains its key (with value null) because the removal is
guarded by truthiness -- a leaked map entry, so the disconnect does not remove
every entry keyed by the connection. -/
theorem disconnect_leaks_nickName_key :
    aget ((disconnectHandler ((connectionHandler cd0 "A"
        (Auth.mk ConnMode.normal "" none none)).1) "A").1).nickName "A" = some none := by
  decide

/-- Claim C6: when the full idle budget elapses with no qualifying traffic, a
connection that is not its room's host is evicted -- the disconnect notice and
`disconnectByServer` are emitted and, once the notified socket disconnects, its
entries are erased; the room host is evicted exactly when it is the only
remaining connection or the accumulated budget reached 180 minutes, and
otherwise its budget grows by exactly 5 minutes and only the logoff alarm is
rescheduled (for 5 minutes), with no new warning alarm. -/
theorem idle_logoff_policy (st : CD) (sid : String) (ts : TimerState)
    (h : jsTruthyStr (aget st.userName sid) = true) :
    (hostFor st sid ≠ some sid →
      (idleEvict st sid ts).1 = removeUserFromMaps st sid ∧
      (idleEvict st sid ts).2.1 = TimerState.mk ts.idleTime_m ts.warning none ∧
      (idleEvict st sid ts).2.2 =
        [Emit.toTarget (some sid) "chat message"
           (Payload.text ("Idle for " ++ toFixed1 ts.idleTime_m ++
             " minutes. Network socket disconnected.")),
         Emit.toTarget (some sid) "disconnectByServer"
           (Payload.disconnectByServer (aget st.userName sid) "server")] ++
        (disconnectHandler st sid).2) ∧
    (hostFor st sid = some sid →
      ((st.userName.length = 1 ∨ 180 ≤ ts.idleTime_m) →
        logoffFired st sid ts =
          (removeUserFromMaps st sid, TimerState.mk ts.idleTime_m ts.warning none,
           [Emit.toTarget (some sid) "chat message"
              (Payload.text (("Idle for " ++ toFixed1 ts.idleTime_m ++
                " minutes. Network socket disconnected.") ++
                ("</br></br>Click <strong>Chat</strong> before disconnection for 40 minutes of network time." ++
                 "</br></br>To <strong>reconnect:</strong> hosts click <strong>Create</strong>, clients click <strong>Connect</strong>.")))],
           true)) ∧
      (¬(st.userName.length = 1 ∨ 180 ≤ ts.idleTime_m) →
        logoffFired st sid ts =
          (st, TimerState.mk (ts.idleTime_m + 5) none (some 5), [], false))) := by
  constructor
  · intro hnh
    refine ⟨?_, ?_, ?_⟩ <;>
      simp [idleEvict, logoffFired, hnh, disconnectHandler, h]
  · intro hh
    constructor
    · intro hc
      have hcb : (decide (st.userName.length = 1) || decide (ts.idleTime_m ≥ 180)) = true := by
        rcases hc with hc | hc <;> simp [hc]
      simp [logoffFired, hh, hcb]
    · intro hc
      push_neg at hc
      have hcb : (decide (st.userName.length = 1) || decide (ts.idleTime_m ≥ 180)) = false := by
        simp only [Bool.or_eq_false_iff, decide_eq_false_iff_not]
        exact ⟨hc.1, by omega⟩
      simp [logoffFired, hh, hcb, setTimer]

/-- Witness for C6: the host of the concrete hosted state with one further
live connection and budget below the cap is not evicted; its budget grows by
5 and only the logoff alarm is rescheduled. -/
theorem idle_logoff_policy_witness :
    jsTruthyStr (aget stHosted.userName "H") = true ∧
    hostFor stHosted "H" = some "H" ∧
    logoffFired stHosted "H" (TimerState.mk 40 (some 20) (some 40)) =
      (stHosted, TimerState.mk 45 none (some 5), [], false) := by
  have h := idle_logoff_policy stHosted "H" (TimerState.mk 40 (some 20) (some 40)) (by decide)
  refine ⟨by decide, by decide, ?_⟩
  have h2 := (h.2 (by decide)).2 (by decide)
  exact h2

end SP
